import Mathlib

/-!
Shallow embedding of the `ttx-eng` transaction engine.

The Rust sources embedded here are `src/models/client.rs` (`Client` and its
five balance operations, `ClientReport`), `src/models/tx.rs` (`Tx`, `TxInput`),
`src/models/tx_type.rs` (`TxType`), `src/models/errors.rs` (`Error`) and
`src/engine.rs` (`Engine::process_tx_inner`, `Engine::report`).

Monetary values are `rust_decimal::Decimal`: a sign-carrying 96-bit integer
mantissa together with a scale in `0..=28`, denoting `m / 10^s`.  We embed a
decimal as an integer mantissa plus a natural scale.  `checked_add` /
`checked_sub` align the two scales, and when the aligned mantissa exceeds the
96-bit range they drop fractional digits one at a time (rounding half away
from zero, as the library's internal rescale does) before giving up and
returning `none`.  `round_dp` uses the library's default midpoint strategy,
banker's rounding (midpoint-nearest-even).  `is_sign_negative` is a sign test
on the mantissa (the model normalises away rust_decimal's negative zero,
which never arises in the scenarios below).
-/

set_option maxRecDepth 100000

/-- Number of fractional digits kept by the engine, `client.rs` line 9. -/
def PRECISION : Nat := 4

/-- The decimal mantissa is a 96-bit magnitude: `|m| < 2 ^ 96`. -/
def N96 : Nat := 2 ^ 96

/-- A `rust_decimal::Decimal`: mantissa `m` and scale `s`, denoting `m / 10 ^ s`. -/
structure Dec where
  m : Int
  s : Nat
deriving Repr, DecidableEq

/-- The rational value denoted by a decimal. -/
def dval (x : Dec) : Rat := (x.m : Rat) / (10 : Rat) ^ x.s

/-- A decimal the real library can represent: 96-bit mantissa, scale at most 28. -/
def Dec.Valid (x : Dec) : Prop := x.m.natAbs < N96 ∧ x.s ≤ 28

instance (x : Dec) : Decidable x.Valid := by
  unfold Dec.Valid; infer_instance

/-- Divide a mantissa by ten, rounding half away from zero (the rounding used
by the library's internal rescale when a sum leaves the 96-bit range). -/
def roundDiv10 (m : Int) : Int :=
  Int.sign m * (((m.natAbs + 5) / 10 : Nat) : Int)

/-- Fit a mantissa into the 96-bit range by dropping fractional digits,
or fail when the scale is exhausted. -/
def fitLoop (m : Int) : Nat → Option Dec
  | 0 => if m.natAbs < N96 then some ⟨m, 0⟩ else none
  | s + 1 => if m.natAbs < N96 then some ⟨m, s + 1⟩ else fitLoop (roundDiv10 m) s

/-- Mantissa of the exact sum of two decimals, aligned at the larger scale. -/
def alignedAddM (x y : Dec) : Int :=
  x.m * 10 ^ (max x.s y.s - x.s) + y.m * 10 ^ (max x.s y.s - y.s)

/-- `Decimal::checked_add`: exact sum, `none` when it cannot be represented. -/
def checked_add (x y : Dec) : Option Dec :=
  fitLoop (alignedAddM x y) (max x.s y.s)

/-- Mantissa negation. -/
def decNeg (x : Dec) : Dec := ⟨-x.m, x.s⟩

/-- `Decimal::checked_sub`, implemented as checked addition of the negation. -/
def checked_sub (x y : Dec) : Option Dec := checked_add x (decNeg y)

/-- `Decimal::is_sign_negative`: the mantissa's sign test. -/
def is_sign_negative (x : Dec) : Bool := x.m < 0

/-- Numeric strict comparison of two decimals, by cross multiplication. -/
def decLt (x y : Dec) : Bool := decide (x.m * 10 ^ y.s < y.m * 10 ^ x.s)

/-- `Decimal::round_dp dp` with the default midpoint-nearest-even strategy:
identity when the scale is at most `dp`, otherwise drop the extra fractional
digits rounding ties to the even magnitude. -/
def round_dp (x : Dec) (dp : Nat) : Dec :=
  if x.s ≤ dp then x
  else
    let p : Nat := 10 ^ (x.s - dp)
    let n : Nat := x.m.natAbs
    let q : Nat := n / p
    let r : Nat := n % p
    let q2 : Nat :=
      if 2 * r > p then q + 1
      else if 2 * r < p then q
      else if q % 2 = 1 then q + 1 else q
    ⟨Int.sign x.m * (q2 : Int), dp⟩

/-- The error taxonomy of `errors.rs`. -/
inductive Error
  | InsufficientFunds
  | Overflow
  | NegativeAmount
  | TxNotFound
  | TxNotUnderDispute
  | AccountLocked
  | ClientIdNoMatch
  | TxIdConflict
  | TxNotADeposit
  | TxInvalidAmount
deriving Repr, DecidableEq

/-- A client account, `client.rs` lines 11-17. -/
structure Client where
  id : Nat
  available : Dec
  held : Dec
  locked : Bool
deriving Repr, DecidableEq

/-- `Client::new`: zero balances, unlocked. -/
def Client.new (client_id : Nat) : Client :=
  ⟨client_id, ⟨0, 0⟩, ⟨0, 0⟩, false⟩

/-- `Client::deposit`, `client.rs` lines 29-45.  Rust mutates `self` and
returns `Result<(), Error>`; the embedding returns the post state paired with
the optional error (`none` is `Ok`). -/
def Client.deposit (c : Client) (amount : Dec) : Client × Option Error :=
  if is_sign_negative amount then (c, some Error.NegativeAmount)
  else if c.locked then (c, some Error.AccountLocked)
  else
    match checked_add c.available amount with
    | none => (c, some Error.Overflow)
    | some val => ({ c with available := round_dp val PRECISION }, none)

/-- `Client::withdraw`, `client.rs` lines 47-67. -/
def Client.withdraw (c : Client) (amount : Dec) : Client × Option Error :=
  if is_sign_negative amount then (c, some Error.NegativeAmount)
  else if c.locked then (c, some Error.AccountLocked)
  else if decLt c.available amount then (c, some Error.InsufficientFunds)
  else
    match checked_sub c.available amount with
    | none => (c, some Error.Overflow)
    | some val => ({ c with available := round_dp val PRECISION }, none)

/-- `Client::dispute`, `client.rs` lines 69-92: subtract from `available`
first (early return on overflow), then add to `held`; a failure of the second
step does not roll the first back. -/
def Client.dispute (c : Client) (amount : Dec) : Client × Option Error :=
  if is_sign_negative amount then (c, some Error.NegativeAmount)
  else if c.locked then (c, some Error.AccountLocked)
  else
    match checked_sub c.available amount with
    | none => (c, some Error.Overflow)
    | some val =>
      match checked_add c.held amount with
      | none => ({ c with available := round_dp val PRECISION }, some Error.Overflow)
      | some v2 =>
        ({ c with available := round_dp val PRECISION, held := round_dp v2 PRECISION }, none)

/-- `Client::resolve`, `client.rs` lines 94-117: the mirror of `dispute`. -/
def Client.resolve (c : Client) (amount : Dec) : Client × Option Error :=
  if is_sign_negative amount then (c, some Error.NegativeAmount)
  else if c.locked then (c, some Error.AccountLocked)
  else
    match checked_add c.available amount with
    | none => (c, some Error.Overflow)
    | some val =>
      match checked_sub c.held amount with
      | none => ({ c with available := round_dp val PRECISION }, some Error.Overflow)
      | some v2 =>
        ({ c with available := round_dp val PRECISION, held := round_dp v2 PRECISION }, none)

/-- `Client::chargeback`, `client.rs` lines 119-136: after the sign and lock
checks it sets `locked := true` before the checked `held` subtraction. -/
def Client.chargeback (c : Client) (amount : Dec) : Client × Option Error :=
  if is_sign_negative amount then (c, some Error.NegativeAmount)
  else if c.locked then (c, some Error.AccountLocked)
  else
    match checked_sub c.held amount with
    | none => ({ c with locked := true }, some Error.Overflow)
    | some val => ({ c with locked := true, held := round_dp val PRECISION }, none)

/-- `TxType`, `tx_type.rs`. -/
inductive TxType
  | Deposit
  | Withdrawal
  | Dispute
  | Resolve
  | Chargeback
deriving Repr, DecidableEq

/-- An incoming request, `tx.rs` `TxInput`. -/
structure TxInput where
  tx_type : TxType
  client_id : Nat
  id : Nat
  amount : Option Dec
deriving Repr, DecidableEq

/-- A stored transaction record, `tx.rs` `Tx`. -/
structure Tx where
  client_id : Nat
  tx_type : TxType
  amount : Dec
  under_dispute : Bool
deriving Repr, DecidableEq

/-- `Tx::new`: records the input amount unchanged (`unwrap_or(0)`),
not under dispute. -/
def Tx.new (t : TxInput) : Tx :=
  ⟨t.client_id, t.tx_type, t.amount.getD ⟨0, 0⟩, false⟩

/-- First-match association-list lookup, modelling `HashMap::get`. -/
def alookup (k : Nat) : List (Nat × α) → Option α
  | [] => none
  | (k2, v) :: rest => if k2 = k then some v else alookup k rest

/-- Replace the value bound to a key, modelling mutation through `get_mut`. -/
def aupdate (k : Nat) (v : α) : List (Nat × α) → List (Nat × α)
  | [] => []
  | (k2, v2) :: rest => if k2 = k then (k2, v) :: rest else (k2, v2) :: aupdate k v rest

/-- The ledger engine state, `engine.rs` lines 13-16. -/
structure Engine where
  clients : List (Nat × Client)
  transactions : List (Nat × Tx)
deriving Repr, DecidableEq

/-- `Engine::new`. -/
def Engine.new : Engine := ⟨[], []⟩

/-- `clients.entry(id).or_insert(Client::new(id))`: create the account when
absent. -/
def Engine.ensureClient (e : Engine) (cid : Nat) : Engine :=
  match alookup cid e.clients with
  | some _ => e
  | none => { e with clients := e.clients ++ [(cid, Client.new cid)] }

/-- The client the `entry` call hands to the operations. -/
def clientOf (e : Engine) (cid : Nat) : Client :=
  (alookup cid e.clients).getD (Client.new cid)

/-- Store the mutated client back into the table and surface the result. -/
def writeClient (e : Engine) (cid : Nat) (r : Client × Option Error) :
    Engine × Option Error :=
  ({ e with clients := aupdate cid r.1 e.clients }, r.2)

/-- `Engine::process_tx_inner`, `engine.rs` lines 32-119. -/
def Engine.process_tx_inner (e : Engine) (t : TxInput) : Engine × Option Error :=
  match t.tx_type with
  | TxType.Deposit =>
    if (alookup t.id e.transactions).isSome then
      (e.ensureClient t.client_id, some Error.TxIdConflict)
    else
      match t.amount with
      | none => (e.ensureClient t.client_id, some Error.TxInvalidAmount)
      | some a =>
        writeClient
          { e.ensureClient t.client_id with
              transactions := e.transactions ++ [(t.id, Tx.new t)] }
          t.client_id ((clientOf e t.client_id).deposit a)
  | TxType.Withdrawal =>
    if (alookup t.id e.transactions).isSome then
      (e.ensureClient t.client_id, some Error.TxIdConflict)
    else
      match t.amount with
      | none => (e.ensureClient t.client_id, some Error.TxInvalidAmount)
      | some a =>
        writeClient
          { e.ensureClient t.client_id with
              transactions := e.transactions ++ [(t.id, Tx.new t)] }
          t.client_id ((clientOf e t.client_id).withdraw a)
  | TxType.Dispute =>
    match alookup t.id e.transactions with
    | none => (e.ensureClient t.client_id, some Error.TxNotFound)
    | some tx =>
      if tx.client_id ≠ t.client_id then
        (e.ensureClient t.client_id, some Error.ClientIdNoMatch)
      else if tx.tx_type ≠ TxType.Deposit then
        (e.ensureClient t.client_id, some Error.TxNotADeposit)
      else
        writeClient
          { e.ensureClient t.client_id with
              transactions := aupdate t.id { tx with under_dispute := true } e.transactions }
          t.client_id ((clientOf e t.client_id).dispute tx.amount)
  | TxType.Resolve =>
    match alookup t.id e.transactions with
    | none => (e.ensureClient t.client_id, some Error.TxNotFound)
    | some tx =>
      if tx.client_id ≠ t.client_id then
        (e.ensureClient t.client_id, some Error.ClientIdNoMatch)
      else if ¬tx.under_dispute then
        (e.ensureClient t.client_id, some Error.TxNotUnderDispute)
      else
        writeClient
          { e.ensureClient t.client_id with
              transactions := aupdate t.id { tx with under_dispute := false } e.transactions }
          t.client_id ((clientOf e t.client_id).resolve tx.amount)
  | TxType.Chargeback =>
    match alookup t.id e.transactions with
    | none => (e.ensureClient t.client_id, some Error.TxNotFound)
    | some tx =>
      if tx.client_id ≠ t.client_id then
        (e.ensureClient t.client_id, some Error.ClientIdNoMatch)
      else if ¬tx.under_dispute then
        (e.ensureClient t.client_id, some Error.TxNotUnderDispute)
      else
        writeClient (e.ensureClient t.client_id)
          t.client_id ((clientOf e t.client_id).chargeback tx.amount)

/-- `Engine::process_tx`: apply a request, discarding the error. -/
def Engine.process_tx (e : Engine) (t : TxInput) : Engine :=
  (e.process_tx_inner t).1

/-- Process a whole input stream from a fresh engine. -/
def Engine.run (ts : List TxInput) : Engine :=
  ts.foldl Engine.process_tx Engine.new

/-- A report row, `client.rs` `ClientReport`. -/
structure ClientReport where
  id : Nat
  available : Dec
  held : Dec
  total : Dec
  locked : Bool
deriving Repr, DecidableEq

/-- `ClientReport::new`: the Rust code computes `total` with the unchecked
`c.available + c.held`, which panics on overflow; the panic is modelled as
`none`. -/
def ClientReport.new (c : Client) : Option ClientReport :=
  (checked_add c.available c.held).map (fun t => ⟨c.id, c.available, c.held, t, c.locked⟩)

/-- `Engine::report`: one row per known client, in table order. -/
def Engine.report (e : Engine) : List (Option ClientReport) :=
  e.clients.map (fun p => ClientReport.new p.2)

/-- `Decimal::MAX`: mantissa `2 ^ 96 - 1`, scale 0. -/
def dMAX : Dec := ⟨(2 : Int) ^ 96 - 1, 0⟩

/-- What a rejected request may do to the ledger: nothing, except that
(a) other clients and other transaction ids are untouched and the target
client's `id` and `held` are untouched; (b) the target client's `locked` may
only flip to `true`, and only on a chargeback; (c) the target client's
`available` may only change on a dispute/resolve that failed with `Overflow`
(the unrolled first leg); (d) the record for the request's `TxId` keeps its
owner, kind and amount, and its `underDispute` flag may only be set `true` by
a dispute or `false` by a resolve; (e) a record may only appear for the
request's `TxId`, as `Tx.new` of a deposit/withdrawal request. -/
def FrameOK (e : Engine) (t : TxInput) (e2 : Engine) (err : Error) : Prop :=
  (∀ cid, cid ≠ t.client_id → alookup cid e2.clients = alookup cid e.clients) ∧
  (∀ c c2, alookup t.client_id e.clients = some c →
    alookup t.client_id e2.clients = some c2 →
    c2.id = c.id ∧ c2.held = c.held ∧
    (c2.locked = c.locked ∨ (t.tx_type = TxType.Chargeback ∧ c2.locked = true)) ∧
    (c2.available = c.available ∨
      ((t.tx_type = TxType.Dispute ∨ t.tx_type = TxType.Resolve) ∧ err = Error.Overflow))) ∧
  (∀ id2, id2 ≠ t.id → alookup id2 e2.transactions = alookup id2 e.transactions) ∧
  (∀ tx, alookup t.id e.transactions = some tx →
    ∃ tx2, alookup t.id e2.transactions = some tx2 ∧
      tx2.client_id = tx.client_id ∧ tx2.tx_type = tx.tx_type ∧ tx2.amount = tx.amount ∧
      (tx2.under_dispute = tx.under_dispute ∨
        (t.tx_type = TxType.Dispute ∧ tx2.under_dispute = true) ∨
        (t.tx_type = TxType.Resolve ∧ tx2.under_dispute = false))) ∧
  (alookup t.id e.transactions = none →
    alookup t.id e2.transactions = none ∨
      ((t.tx_type = TxType.Deposit ∨ t.tx_type = TxType.Withdrawal) ∧
        alookup t.id e2.transactions = some (Tx.new t)))

/-! ### Association-list lemmas -/

theorem alookup_append_ne {α : Type} {k k2 : Nat} (v : α) (l : List (Nat × α))
    (h : k2 ≠ k) : alookup k (l ++ [(k2, v)]) = alookup k l := by
  induction l with
  | nil => simp [alookup, h]
  | cons p rest ih =>
    obtain ⟨k1, v1⟩ := p
    by_cases hk : k1 = k
    · simp [alookup, hk]
    · simp [alookup, hk, ih]

theorem alookup_append_of_none {α : Type} {k : Nat} (v : α) {l : List (Nat × α)}
    (h : alookup k l = none) : alookup k (l ++ [(k, v)]) = some v := by
  induction l with
  | nil => simp [alookup]
  | cons p rest ih =>
    obtain ⟨k1, v1⟩ := p
    by_cases hk : k1 = k
    · simp [alookup, hk] at h
    · simp [alookup, hk] at h ⊢
      exact ih h

theorem alookup_append_of_some {α : Type} {k : Nat} {c : α} (l2 : List (Nat × α))
    {l : List (Nat × α)} (h : alookup k l = some c) :
    alookup k (l ++ l2) = some c := by
  induction l with
  | nil => simp [alookup] at h
  | cons p rest ih =>
    obtain ⟨k1, v1⟩ := p
    by_cases hk : k1 = k
    · simp [alookup, hk] at h ⊢
      exact h
    · simp [alookup, hk] at h ⊢
      exact ih h

theorem alookup_aupdate_ne {α : Type} {k k2 : Nat} (v : α) (l : List (Nat × α))
    (h : k2 ≠ k) : alookup k2 (aupdate k v l) = alookup k2 l := by
  induction l with
  | nil => rfl
  | cons p rest ih =>
    obtain ⟨k1, v1⟩ := p
    by_cases hk : k1 = k
    · subst hk
      simp [aupdate, alookup, Ne.symm h]
    · by_cases hk2 : k1 = k2
      · subst hk2
        simp [aupdate, alookup, hk]
      · simp [aupdate, alookup, hk, hk2, ih]

theorem alookup_aupdate_self {α : Type} {k : Nat} (v : α) (l : List (Nat × α)) :
    alookup k (aupdate k v l) = (alookup k l).map (fun _ => v) := by
  induction l with
  | nil => simp [aupdate, alookup]
  | cons p rest ih =>
    obtain ⟨k1, v1⟩ := p
    by_cases hk : k1 = k
    · simp [aupdate, alookup, hk]
    · simp [aupdate, alookup, hk, ih]

/-! ### Engine helper lemmas -/

theorem ensure_transactions (e : Engine) (cid : Nat) :
    (e.ensureClient cid).transactions = e.transactions := by
  unfold Engine.ensureClient
  split <;> rfl

theorem ensure_of_some {e : Engine} {cid : Nat} {c : Client}
    (h : alookup cid e.clients = some c) : e.ensureClient cid = e := by
  unfold Engine.ensureClient
  rw [h]

theorem clientOf_of_some {e : Engine} {cid : Nat} {c : Client}
    (h : alookup cid e.clients = some c) : clientOf e cid = c := by
  unfold clientOf
  rw [h]
  rfl

theorem clientOf_of_none {e : Engine} {cid : Nat}
    (h : alookup cid e.clients = none) : clientOf e cid = Client.new cid := by
  unfold clientOf
  rw [h]
  rfl

theorem ensure_lookup_self (e : Engine) (cid : Nat) :
    alookup cid (e.ensureClient cid).clients = some (clientOf e cid) := by
  unfold Engine.ensureClient clientOf
  cases h : alookup cid e.clients with
  | none => simp [alookup_append_of_none _ h]
  | some c => simp [h]

theorem ensure_lookup_ne {e : Engine} {cid k : Nat} (h : k ≠ cid) :
    alookup k (e.ensureClient cid).clients = alookup k e.clients := by
  unfold Engine.ensureClient
  cases hc : alookup cid e.clients with
  | none =>
    simp only [hc]
    exact alookup_append_ne _ _ (Ne.symm h)
  | some c => simp only [hc]

theorem ensure_lookup_of_some {e : Engine} {cid k : Nat} {c : Client}
    (h : alookup k e.clients = some c) :
    alookup k (e.ensureClient cid).clients = some c := by
  by_cases hk : k = cid
  · subst hk
    rw [ensure_lookup_self, clientOf_of_some h]
  · rw [ensure_lookup_ne hk]
    exact h

/-! ### Decimal lemmas -/

theorem fitLoop_of_lt {m : Int} (s : Nat) (h : m.natAbs < N96) :
    fitLoop m s = some ⟨m, s⟩ := by
  cases s <;> simp [fitLoop, h]

theorem checked_add_of_fit {x y : Dec} (h : (alignedAddM x y).natAbs < N96) :
    checked_add x y = some ⟨alignedAddM x y, max x.s y.s⟩ := by
  unfold checked_add
  exact fitLoop_of_lt _ h

theorem round_dp_of_le {x : Dec} {dp : Nat} (h : x.s ≤ dp) : round_dp x dp = x := by
  unfold round_dp
  simp [h]

theorem pow10_sub_mul {a b : Nat} (h : b ≤ a) :
    (10 : Rat) ^ (a - b) * 10 ^ b = 10 ^ a := by
  rw [← pow_add]
  congr 1
  omega

theorem dval_aligned (x y : Dec) :
    dval ⟨alignedAddM x y, max x.s y.s⟩ = dval x + dval y := by
  unfold dval alignedAddM
  have hx := pow10_sub_mul (le_max_left x.s y.s)
  have hy := pow10_sub_mul (le_max_right x.s y.s)
  have h1 : ((10 : Rat) ^ x.s) ≠ 0 := by positivity
  have h2 : ((10 : Rat) ^ y.s) ≠ 0 := by positivity
  have h3 : ((10 : Rat) ^ max x.s y.s) ≠ 0 := by positivity
  field_simp
  linear_combination ((x.m : Rat) * 10 ^ y.s) * hx + ((y.m : Rat) * 10 ^ x.s) * hy

theorem dval_decNeg (x : Dec) : dval (decNeg x) = -dval x := by
  unfold dval decNeg
  push_cast
  ring

/-! ### Client operation frame lemmas -/

theorem deposit_fail {c : Client} {a : Dec} {err : Error}
    (h : (c.deposit a).2 = some err) : (c.deposit a).1 = c := by
  unfold Client.deposit at h ⊢
  split at h
  · simp_all
  · split at h
    · simp_all
    · split at h <;> simp_all

theorem withdraw_fail {c : Client} {a : Dec} {err : Error}
    (h : (c.withdraw a).2 = some err) : (c.withdraw a).1 = c := by
  unfold Client.withdraw at h ⊢
  split at h
  · simp_all
  · split at h
    · simp_all
    · split at h
      · simp_all
      · split at h <;> simp_all

theorem dispute_fail {c : Client} {a : Dec} {err : Error}
    (h : (c.dispute a).2 = some err) :
    (c.dispute a).1.held = c.held ∧ (c.dispute a).1.locked = c.locked ∧
      (c.dispute a).1.id = c.id ∧
      ((c.dispute a).1.available = c.available ∨ err = Error.Overflow) := by
  unfold Client.dispute at h ⊢
  split at h
  · simp_all
  · split at h
    · simp_all
    · split at h
      · simp_all
      · split at h <;> simp_all

theorem resolve_fail {c : Client} {a : Dec} {err : Error}
    (h : (c.resolve a).2 = some err) :
    (c.resolve a).1.held = c.held ∧ (c.resolve a).1.locked = c.locked ∧
      (c.resolve a).1.id = c.id ∧
      ((c.resolve a).1.available = c.available ∨ err = Error.Overflow) := by
  unfold Client.resolve at h ⊢
  split at h
  · simp_all
  · split at h
    · simp_all
    · split at h
      · simp_all
      · split at h <;> simp_all

theorem chargeback_fail {c : Client} {a : Dec} {err : Error}
    (h : (c.chargeback a).2 = some err) :
    (c.chargeback a).1.held = c.held ∧ (c.chargeback a).1.available = c.available ∧
      (c.chargeback a).1.id = c.id ∧
      ((c.chargeback a).1.locked = c.locked ∨ (c.chargeback a).1.locked = true) := by
  unfold Client.chargeback at h ⊢
  split at h
  · simp_all
  · split at h
    · simp_all
    · split at h <;> simp_all

theorem aupdate_lookup_self {α : Type} {k : Nat} {v : α} {l : List (Nat × α)}
    (h : alookup k l = some v) : aupdate k v l = l := by
  induction l with
  | nil => rfl
  | cons p rest ih =>
    obtain ⟨k1, v1⟩ := p
    by_cases hk : k1 = k
    · simp [alookup, hk] at h
      simp [aupdate, hk, h]
    · simp [alookup, hk] at h
      simp [aupdate, hk, ih h]

/-- A sign-negative amount is rejected by every operation without any change. -/
theorem ops_neg (c : Client) (x : Dec) (hn : is_sign_negative x = true) :
    c.deposit x = (c, some Error.NegativeAmount) ∧
    c.withdraw x = (c, some Error.NegativeAmount) ∧
    c.dispute x = (c, some Error.NegativeAmount) ∧
    c.resolve x = (c, some Error.NegativeAmount) ∧
    c.chargeback x = (c, some Error.NegativeAmount) := by
  unfold Client.deposit Client.withdraw Client.dispute Client.resolve Client.chargeback
  simp [hn]

theorem decNeg_s (x : Dec) : (decNeg x).s = x.s := rfl

theorem alignedAddM_zero_left (x : Dec) : alignedAddM ⟨0, 0⟩ x = x.m := by
  unfold alignedAddM
  simp

theorem checked_add_zero_left {x : Dec} (hx : x.m.natAbs < N96) :
    checked_add ⟨0, 0⟩ x = some ⟨x.m, x.s⟩ := by
  unfold checked_add
  rw [alignedAddM_zero_left]
  have hmax : max (Dec.mk 0 0).s x.s = x.s := max_eq_right (Nat.zero_le _)
  rw [hmax]
  exact fitLoop_of_lt _ hx

theorem checked_sub_zero_left {x : Dec} (hx : x.m.natAbs < N96) :
    checked_sub ⟨0, 0⟩ x = some ⟨-x.m, x.s⟩ := by
  unfold checked_sub
  have hneg : (decNeg x).m.natAbs < N96 := by
    unfold decNeg
    simpa using hx
  rw [checked_add_zero_left hneg]
  rfl

/-- On a fresh account a non-negative dispute always succeeds (for a
representable amount): both legs operate on a zero balance. -/
theorem dispute_fresh_success {cid : Nat} {x : Dec} (hx : x.m.natAbs < N96)
    (hn : is_sign_negative x = false) : ((Client.new cid).dispute x).2 = none := by
  unfold Client.dispute Client.new
  rw [checked_sub_zero_left hx, checked_add_zero_left hx]
  simp [hn]

theorem resolve_fresh_success {cid : Nat} {x : Dec} (hx : x.m.natAbs < N96)
    (hn : is_sign_negative x = false) : ((Client.new cid).resolve x).2 = none := by
  unfold Client.resolve Client.new
  rw [checked_sub_zero_left hx, checked_add_zero_left hx]
  simp [hn]

theorem chargeback_fresh_success {cid : Nat} {x : Dec} (hx : x.m.natAbs < N96)
    (hn : is_sign_negative x = false) : ((Client.new cid).chargeback x).2 = none := by
  unfold Client.chargeback Client.new
  rw [checked_sub_zero_left hx]
  simp [hn]

/-- A successful dispute implies the sign check and the lock check passed,
and does not touch the lock. -/
theorem dispute_success {c : Client} {x : Dec} (h : (c.dispute x).2 = none) :
    (c.dispute x).1.locked = c.locked ∧ c.locked = false ∧
      is_sign_negative x = false := by
  unfold Client.dispute at h ⊢
  split at h
  · simp_all
  · split at h
    · simp_all
    · split at h
      · simp_all
      · split at h <;> simp_all

/-- Exact characterisation of a successful dispute when every quantity is at
scale ≤ 4 and both legs stay inside the 96-bit range: no rounding happens. -/
theorem dispute_exact {c : Client} {x : Dec}
    (hl : c.locked = false) (hn : is_sign_negative x = false)
    (hsa : c.available.s ≤ PRECISION) (hsh : c.held.s ≤ PRECISION)
    (hsx : x.s ≤ PRECISION)
    (h1 : (alignedAddM c.available (decNeg x)).natAbs < N96)
    (h2 : (alignedAddM c.held x).natAbs < N96) :
    c.dispute x =
      ({ c with
          available := ⟨alignedAddM c.available (decNeg x), max c.available.s x.s⟩,
          held := ⟨alignedAddM c.held x, max c.held.s x.s⟩ }, none) := by
  unfold Client.dispute checked_sub
  rw [checked_add_of_fit h1, checked_add_of_fit h2]
  have r1 : round_dp ⟨alignedAddM c.available (decNeg x), max c.available.s x.s⟩
      PRECISION = ⟨alignedAddM c.available (decNeg x), max c.available.s x.s⟩ :=
    round_dp_of_le (max_le hsa hsx)
  have r2 : round_dp ⟨alignedAddM c.held x, max c.held.s x.s⟩ PRECISION =
      ⟨alignedAddM c.held x, max c.held.s x.s⟩ :=
    round_dp_of_le (max_le hsh hsx)
  simp [hn, hl, decNeg_s, r1, r2]

/-- Exact characterisation of a successful resolve, mirror of
`dispute_exact`. -/
theorem resolve_exact {c : Client} {x : Dec}
    (hl : c.locked = false) (hn : is_sign_negative x = false)
    (hsa : c.available.s ≤ PRECISION) (hsh : c.held.s ≤ PRECISION)
    (hsx : x.s ≤ PRECISION)
    (h1 : (alignedAddM c.available x).natAbs < N96)
    (h2 : (alignedAddM c.held (decNeg x)).natAbs < N96) :
    c.resolve x =
      ({ c with
          available := ⟨alignedAddM c.available x, max c.available.s x.s⟩,
          held := ⟨alignedAddM c.held (decNeg x), max c.held.s x.s⟩ }, none) := by
  unfold Client.resolve checked_sub
  rw [checked_add_of_fit h1, checked_add_of_fit h2]
  have r1 : round_dp ⟨alignedAddM c.available x, max c.available.s x.s⟩ PRECISION =
      ⟨alignedAddM c.available x, max c.available.s x.s⟩ :=
    round_dp_of_le (max_le hsa hsx)
  have r2 : round_dp ⟨alignedAddM c.held (decNeg x), max c.held.s x.s⟩
      PRECISION = ⟨alignedAddM c.held (decNeg x), max c.held.s x.s⟩ :=
    round_dp_of_le (max_le hsh hsx)
  simp [hn, hl, decNeg_s, r1, r2]

theorem aupdate_ensure_self (e : Engine) (cid : Nat) (v : Client) :
    alookup cid (aupdate cid v (e.ensureClient cid).clients) = some v := by
  rw [alookup_aupdate_self, ensure_lookup_self]
  rfl

/-! ### Frame lemmas for each rejection shape of `process_tx_inner` -/

theorem frame_pure (e : Engine) (t : TxInput) (err : Error) :
    FrameOK e t (e.ensureClient t.client_id) err := by
  refine ⟨?_, ?_, ?_, ?_, ?_⟩
  · intro cid hne
    exact ensure_lookup_ne hne
  · intro c c2 hc hc2
    rw [ensure_lookup_self, clientOf_of_some hc] at hc2
    injection hc2 with h0
    subst h0
    exact ⟨rfl, rfl, Or.inl rfl, Or.inl rfl⟩
  · intro id2 _
    rw [ensure_transactions]
  · intro tx hrec
    rw [ensure_transactions]
    exact ⟨tx, hrec, rfl, rfl, rfl, Or.inl rfl⟩
  · intro hnone
    rw [ensure_transactions]
    exact Or.inl hnone

theorem frame_dw {e : Engine} {t : TxInput} (err : Error) (c2 : Client)
    (hk : t.tx_type = TxType.Deposit ∨ t.tx_type = TxType.Withdrawal)
    (hfresh : alookup t.id e.transactions = none)
    (hc2 : c2 = clientOf e t.client_id) :
    FrameOK e t
      ⟨aupdate t.client_id c2 (e.ensureClient t.client_id).clients,
        e.transactions ++ [(t.id, Tx.new t)]⟩ err := by
  subst hc2
  refine ⟨?_, ?_, ?_, ?_, ?_⟩
  · intro cid hne
    show alookup cid (aupdate t.client_id _ _) = _
    rw [alookup_aupdate_ne _ _ hne, ensure_lookup_ne hne]
  · intro c c2 hc hc2
    rw [show alookup t.client_id
        (Engine.clients ⟨aupdate t.client_id (clientOf e t.client_id)
          (e.ensureClient t.client_id).clients, _⟩) =
        some (clientOf e t.client_id) from aupdate_ensure_self e t.client_id _] at hc2
    rw [clientOf_of_some hc] at hc2
    injection hc2 with h0
    subst h0
    exact ⟨rfl, rfl, Or.inl rfl, Or.inl rfl⟩
  · intro id2 hne
    exact alookup_append_ne _ _ (Ne.symm hne)
  · intro tx hrec
    rw [hfresh] at hrec
    cases hrec
  · intro _
    exact Or.inr ⟨hk, alookup_append_of_none _ hfresh⟩

theorem frame_dispute {e : Engine} {t : TxInput} {tx : Tx} {err : Error} {c2 : Client}
    (ht : t.tx_type = TxType.Dispute)
    (hrec : alookup t.id e.transactions = some tx)
    (hc2 : c2 = ((clientOf e t.client_id).dispute tx.amount).1)
    (hfail : ((clientOf e t.client_id).dispute tx.amount).2 = some err) :
    FrameOK e t
      ⟨aupdate t.client_id c2 (e.ensureClient t.client_id).clients,
        aupdate t.id { tx with under_dispute := true } e.transactions⟩ err := by
  obtain ⟨hheld, hlock, hid, havail⟩ := dispute_fail hfail
  subst hc2
  refine ⟨?_, ?_, ?_, ?_, ?_⟩
  · intro cid hne
    show alookup cid (aupdate t.client_id _ _) = _
    rw [alookup_aupdate_ne _ _ hne, ensure_lookup_ne hne]
  · intro c c2 hc hc2
    rw [show alookup t.client_id
        (Engine.clients ⟨aupdate t.client_id ((clientOf e t.client_id).dispute tx.amount).1
          (e.ensureClient t.client_id).clients, _⟩) =
        some ((clientOf e t.client_id).dispute tx.amount).1 from
        aupdate_ensure_self e t.client_id _] at hc2
    injection hc2 with h0
    subst h0
    rw [clientOf_of_some hc] at hheld hlock hid havail ⊢
    refine ⟨hid, hheld, Or.inl hlock, ?_⟩
    rcases havail with h0 | h0
    · exact Or.inl h0
    · exact Or.inr ⟨Or.inl ht, h0⟩
  · intro id2 hne
    exact alookup_aupdate_ne _ _ hne
  · intro tx0 hrec0
    rw [hrec] at hrec0
    injection hrec0 with h0
    subst h0
    refine ⟨{ tx with under_dispute := true }, ?_, rfl, rfl, rfl,
      Or.inr (Or.inl ⟨ht, rfl⟩)⟩
    show alookup t.id (aupdate t.id _ e.transactions) = _
    rw [alookup_aupdate_self, hrec]
    rfl
  · intro hnone
    rw [hnone] at hrec
    cases hrec

theorem frame_resolve {e : Engine} {t : TxInput} {tx : Tx} {err : Error} {c2 : Client}
    (ht : t.tx_type = TxType.Resolve)
    (hrec : alookup t.id e.transactions = some tx)
    (hc2 : c2 = ((clientOf e t.client_id).resolve tx.amount).1)
    (hfail : ((clientOf e t.client_id).resolve tx.amount).2 = some err) :
    FrameOK e t
      ⟨aupdate t.client_id c2 (e.ensureClient t.client_id).clients,
        aupdate t.id { tx with under_dispute := false } e.transactions⟩ err := by
  obtain ⟨hheld, hlock, hid, havail⟩ := resolve_fail hfail
  subst hc2
  refine ⟨?_, ?_, ?_, ?_, ?_⟩
  · intro cid hne
    show alookup cid (aupdate t.client_id _ _) = _
    rw [alookup_aupdate_ne _ _ hne, ensure_lookup_ne hne]
  · intro c c2 hc hc2
    rw [show alookup t.client_id
        (Engine.clients ⟨aupdate t.client_id ((clientOf e t.client_id).resolve tx.amount).1
          (e.ensureClient t.client_id).clients, _⟩) =
        some ((clientOf e t.client_id).resolve tx.amount).1 from
        aupdate_ensure_self e t.client_id _] at hc2
    injection hc2 with h0
    subst h0
    rw [clientOf_of_some hc] at hheld hlock hid havail ⊢
    refine ⟨hid, hheld, Or.inl hlock, ?_⟩
    rcases havail with h0 | h0
    · exact Or.inl h0
    · exact Or.inr ⟨Or.inr ht, h0⟩
  · intro id2 hne
    exact alookup_aupdate_ne _ _ hne
  · intro tx0 hrec0
    rw [hrec] at hrec0
    injection hrec0 with h0
    subst h0
    refine ⟨{ tx with under_dispute := false }, ?_, rfl, rfl, rfl,
      Or.inr (Or.inr ⟨ht, rfl⟩)⟩
    show alookup t.id (aupdate t.id _ e.transactions) = _
    rw [alookup_aupdate_self, hrec]
    rfl
  · intro hnone
    rw [hnone] at hrec
    cases hrec

theorem frame_chargeback {e : Engine} {t : TxInput} {tx : Tx} {err : Error} {c2 : Client}
    (ht : t.tx_type = TxType.Chargeback)
    (hc2 : c2 = ((clientOf e t.client_id).chargeback tx.amount).1)
    (hfail : ((clientOf e t.client_id).chargeback tx.amount).2 = some err) :
    FrameOK e t
      ⟨aupdate t.client_id c2 (e.ensureClient t.client_id).clients,
        (e.ensureClient t.client_id).transactions⟩ err := by
  obtain ⟨hheld, havail, hid, hlock⟩ := chargeback_fail hfail
  subst hc2
  refine ⟨?_, ?_, ?_, ?_, ?_⟩
  · intro cid hne
    show alookup cid (aupdate t.client_id _ _) = _
    rw [alookup_aupdate_ne _ _ hne, ensure_lookup_ne hne]
  · intro c c2 hc hc2
    rw [show alookup t.client_id
        (Engine.clients ⟨aupdate t.client_id ((clientOf e t.client_id).chargeback tx.amount).1
          (e.ensureClient t.client_id).clients, _⟩) =
        some ((clientOf e t.client_id).chargeback tx.amount).1 from
        aupdate_ensure_self e t.client_id _] at hc2
    injection hc2 with h0
    subst h0
    rw [clientOf_of_some hc] at hheld hlock hid havail ⊢
    refine ⟨hid, hheld, ?_, Or.inl havail⟩
    rcases hlock with h0 | h0
    · exact Or.inl h0
    · exact Or.inr ⟨ht, h0⟩
  · intro id2 _
    show alookup id2 (e.ensureClient t.client_id).transactions = _
    rw [ensure_transactions]
  · intro tx0 hrec0
    refine ⟨tx0, ?_, rfl, rfl, rfl, Or.inl rfl⟩
    show alookup t.id (e.ensureClient t.client_id).transactions = _
    rw [ensure_transactions]
    exact hrec0
  · intro hnone
    left
    show alookup t.id (e.ensureClient t.client_id).transactions = _
    rw [ensure_transactions]
    exact hnone

/-! ### Claim C1 -/

/-- C1 (amended): a rejected request leaves the ledger unchanged except that
(per `FrameOK`): the deposit/withdrawal record is retained when the balance
mutation fails; dispute/resolve set the record's `underDispute` flag (to
`true` resp. `false`) before the account operation, so the flag change
survives the rejection; dispute/resolve do not roll back the `available`
change when the second leg overflows; and chargeback sets `locked = true`
even when its `held` subtraction overflows.  The original claim allowed only
the first and third of these, which a counterexample refutes. -/
theorem claim1_rejected_request_frame (e : Engine) (t : TxInput) (e2 : Engine)
    (err : Error) (h : e.process_tx_inner t = (e2, some err)) :
    FrameOK e t e2 err := by
  obtain ⟨tt, cid, tid, amt⟩ := t
  cases tt
  case Deposit =>
    simp only [Engine.process_tx_inner, writeClient] at h
    by_cases hconf : (alookup tid e.transactions).isSome = true
    · rw [if_pos hconf] at h
      injection h with h1 h2
      subst h1
      exact frame_pure e _ err
    · rw [if_neg hconf] at h
      have hfresh : alookup tid e.transactions = none :=
        Option.not_isSome_iff_eq_none.mp hconf
      cases amt with
      | none =>
        injection h with h1 h2
        subst h1
        exact frame_pure e _ err
      | some a =>
        injection h with h1 h2
        subst h1
        exact @frame_dw e ⟨TxType.Deposit, cid, tid, some a⟩ err _ (Or.inl rfl) hfresh
          (deposit_fail h2)
  case Withdrawal =>
    simp only [Engine.process_tx_inner, writeClient] at h
    by_cases hconf : (alookup tid e.transactions).isSome = true
    · rw [if_pos hconf] at h
      injection h with h1 h2
      subst h1
      exact frame_pure e _ err
    · rw [if_neg hconf] at h
      have hfresh : alookup tid e.transactions = none :=
        Option.not_isSome_iff_eq_none.mp hconf
      cases amt with
      | none =>
        injection h with h1 h2
        subst h1
        exact frame_pure e _ err
      | some a =>
        injection h with h1 h2
        subst h1
        exact @frame_dw e ⟨TxType.Withdrawal, cid, tid, some a⟩ err _ (Or.inr rfl) hfresh
          (withdraw_fail h2)
  case Dispute =>
    simp only [Engine.process_tx_inner, writeClient] at h
    cases hrec : alookup tid e.transactions with
    | none =>
      simp only [hrec] at h
      injection h with h1 h2
      subst h1
      exact frame_pure e _ err
    | some tx =>
      simp only [hrec] at h
      by_cases howner : tx.client_id = cid
      · by_cases hkind : tx.tx_type = TxType.Deposit
        · rw [if_neg (not_not_intro howner), if_neg (not_not_intro hkind)] at h
          injection h with h1 h2
          subst h1
          exact @frame_dispute e ⟨TxType.Dispute, cid, tid, amt⟩ tx err _ rfl hrec rfl h2
        · simp only [howner, hkind, ne_eq, not_true_eq_false, if_false,
            not_false_eq_true, if_true, ite_true, ite_false] at h
          injection h with h1 h2
          subst h1
          exact frame_pure e _ err
      · simp only [howner, ne_eq, not_false_eq_true, if_true, ite_true] at h
        injection h with h1 h2
        subst h1
        exact frame_pure e _ err
  case Resolve =>
    simp only [Engine.process_tx_inner, writeClient] at h
    cases hrec : alookup tid e.transactions with
    | none =>
      simp only [hrec] at h
      injection h with h1 h2
      subst h1
      exact frame_pure e _ err
    | some tx =>
      simp only [hrec] at h
      by_cases howner : tx.client_id = cid
      · by_cases hud : tx.under_dispute = true
        · rw [if_neg (not_not_intro howner), if_neg (not_not_intro hud)] at h
          injection h with h1 h2
          subst h1
          exact @frame_resolve e ⟨TxType.Resolve, cid, tid, amt⟩ tx err _ rfl hrec rfl h2
        · simp only [howner, hud, ne_eq, not_true_eq_false, if_false,
            Bool.false_eq_true, not_false_eq_true, if_true, ite_true,
            ite_false] at h
          injection h with h1 h2
          subst h1
          exact frame_pure e _ err
      · simp only [howner, ne_eq, not_false_eq_true, if_true, ite_true] at h
        injection h with h1 h2
        subst h1
        exact frame_pure e _ err
  case Chargeback =>
    simp only [Engine.process_tx_inner, writeClient] at h
    cases hrec : alookup tid e.transactions with
    | none =>
      simp only [hrec] at h
      injection h with h1 h2
      subst h1
      exact frame_pure e _ err
    | some tx =>
      simp only [hrec] at h
      by_cases howner : tx.client_id = cid
      · by_cases hud : tx.under_dispute = true
        · rw [if_neg (not_not_intro howner), if_neg (not_not_intro hud)] at h
          injection h with h1 h2
          subst h1
          exact @frame_chargeback e ⟨TxType.Chargeback, cid, tid, amt⟩ tx err _ rfl rfl h2
        · simp only [howner, hud, ne_eq, not_true_eq_false, if_false,
            Bool.false_eq_true, not_false_eq_true, if_true, ite_true,
            ite_false] at h
          injection h with h1 h2
          subst h1
          exact frame_pure e _ err
      · simp only [howner, ne_eq, not_false_eq_true, if_true, ite_true] at h
        injection h with h1 h2
        subst h1
        exact frame_pure e _ err

/-- C1 counterexample: after deposit, dispute, chargeback of tx 1, a resolve
request for tx 1 is rejected with `AccountLocked`, yet it flips the stored
record's `underDispute` flag from `true` to `false` — a state change that is
neither of the two exceptions (dispute-overflow non-rollback, record
retention) the claim allows. -/
theorem claim1_counterexample :
    ((Engine.run [⟨TxType.Deposit, 0, 1, some ⟨1, 0⟩⟩, ⟨TxType.Dispute, 0, 1, none⟩,
        ⟨TxType.Chargeback, 0, 1, none⟩]).process_tx_inner
      ⟨TxType.Resolve, 0, 1, none⟩).2 = some Error.AccountLocked ∧
    alookup 1 (Engine.run [⟨TxType.Deposit, 0, 1, some ⟨1, 0⟩⟩,
        ⟨TxType.Dispute, 0, 1, none⟩,
        ⟨TxType.Chargeback, 0, 1, none⟩]).transactions =
      some ⟨0, TxType.Deposit, ⟨1, 0⟩, true⟩ ∧
    alookup 1 ((Engine.run [⟨TxType.Deposit, 0, 1, some ⟨1, 0⟩⟩,
        ⟨TxType.Dispute, 0, 1, none⟩,
        ⟨TxType.Chargeback, 0, 1, none⟩]).process_tx_inner
      ⟨TxType.Resolve, 0, 1, none⟩).1.transactions =
      some ⟨0, TxType.Deposit, ⟨1, 0⟩, false⟩ := by
  decide

/-- Witness for C1: instantiating the frame theorem on a concrete rejected
dispute (unknown TxId on a fresh engine). -/
theorem claim1_witness :
    alookup 5 (Engine.mk [(0, Client.new 0)] []).clients = alookup 5 Engine.new.clients :=
  (claim1_rejected_request_frame Engine.new ⟨TxType.Dispute, 0, 1, none⟩
    (Engine.mk [(0, Client.new 0)] []) Error.TxNotFound (by decide)).1 5 (by decide)

/-! ### Claim C2 -/

/-- C2 (amended): on a locked account every one of the five operations fails
and changes no field; the error is `ACCOUNT_LOCKED` for a non-negative amount
but `NEGATIVE_AMOUNT` for a sign-negative one, because the sign check runs
before the lock check (the original claim said the lock check runs first). -/
theorem claim2_locked_account_rejected (c : Client) (x : Dec) (h : c.locked = true) :
    c.deposit x =
      (c, some (if is_sign_negative x then Error.NegativeAmount else Error.AccountLocked)) ∧
    c.withdraw x =
      (c, some (if is_sign_negative x then Error.NegativeAmount else Error.AccountLocked)) ∧
    c.dispute x =
      (c, some (if is_sign_negative x then Error.NegativeAmount else Error.AccountLocked)) ∧
    c.resolve x =
      (c, some (if is_sign_negative x then Error.NegativeAmount else Error.AccountLocked)) ∧
    c.chargeback x =
      (c, some (if is_sign_negative x then Error.NegativeAmount else Error.AccountLocked)) := by
  unfold Client.deposit Client.withdraw Client.dispute Client.resolve Client.chargeback
  by_cases hn : is_sign_negative x = true <;> simp [hn, h]

/-- C2 counterexample: a deposit of `-1` into a locked account fails with
`NegativeAmount`, not `AccountLocked`, so the lock check is not the first
check. -/
theorem claim2_counterexample :
    Client.deposit ⟨1, ⟨0, 0⟩, ⟨0, 0⟩, true⟩ ⟨-1, 0⟩ =
      (⟨1, ⟨0, 0⟩, ⟨0, 0⟩, true⟩, some Error.NegativeAmount) ∧
    some Error.NegativeAmount ≠ some Error.AccountLocked := by
  decide

/-- Witness for C2 at a concrete locked account and non-negative amount. -/
theorem claim2_witness :
    Client.deposit ⟨1, ⟨0, 0⟩, ⟨0, 0⟩, true⟩ ⟨1, 0⟩ =
      (⟨1, ⟨0, 0⟩, ⟨0, 0⟩, true⟩, some Error.AccountLocked) := by
  have h := (claim2_locked_account_rejected ⟨1, ⟨0, 0⟩, ⟨0, 0⟩, true⟩ ⟨1, 0⟩ rfl).1
  simpa using h

/-! ### Claim C3 -/

/-- C3 (amended): for every unlocked account and every amount that is not
sign-negative, chargeback leaves `locked = true` whether or not the `held`
subtraction overflows; and after any successful dispute a chargeback of the
same amount always leaves the account locked.  (The original claim said
"every amount": a sign-negative amount is rejected before the lock is set.) -/
theorem claim3_chargeback_always_locks :
    (∀ (c : Client) (x : Dec), c.locked = false → is_sign_negative x = false →
      (c.chargeback x).1.locked = true) ∧
    (∀ (c : Client) (x : Dec), (c.dispute x).2 = none →
      ((c.dispute x).1.chargeback x).1.locked = true) := by
  have main : ∀ (c : Client) (x : Dec), c.locked = false → is_sign_negative x = false →
      (c.chargeback x).1.locked = true := by
    intro c x hl hn
    unfold Client.chargeback
    rw [if_neg (by simp [hn]), if_neg (by simp [hl])]
    split <;> rfl
  refine ⟨main, ?_⟩
  intro c x h
  obtain ⟨h1, h2, h3⟩ := dispute_success h
  exact main _ _ (h1.trans h2) h3

/-- C3 counterexample: a chargeback of `-1` on an unlocked account is
rejected by the sign check and does not lock the account, so "for every
amount" fails. -/
theorem claim3_counterexample :
    Client.chargeback ⟨1, ⟨0, 0⟩, ⟨0, 0⟩, false⟩ ⟨-1, 0⟩ =
      (⟨1, ⟨0, 0⟩, ⟨0, 0⟩, false⟩, some Error.NegativeAmount) ∧
    (Client.chargeback ⟨1, ⟨0, 0⟩, ⟨0, 0⟩, false⟩ ⟨-1, 0⟩).1.locked = false := by
  decide

/-- Witness for C3 at a concrete unlocked account. -/
theorem claim3_witness :
    (Client.chargeback ⟨7, ⟨5, 0⟩, ⟨9, 0⟩, false⟩ ⟨2, 1⟩).1.locked = true :=
  claim3_chargeback_always_locks.1 ⟨7, ⟨5, 0⟩, ⟨9, 0⟩, false⟩ ⟨2, 1⟩ rfl (by decide)

/-! ### Claim C4 -/

theorem dval_aligned_sub (x y : Dec) :
    dval ⟨alignedAddM x (decNeg y), max x.s y.s⟩ = dval x - dval y := by
  have h := dval_aligned x (decNeg y)
  rw [dval_decNeg, decNeg_s] at h
  rw [h]
  ring

/-- C4 (amended): dispute then resolve of the same amount restores the
`available` and `held` values, provided the account fields and the amount all
carry at most 4 fractional digits and each of the four checked sub-steps
stays inside the 96-bit mantissa range (so that neither `round_dp` nor the
internal rescale can lose precision).  The original claim, which assumed only
"no overflow", fails for an amount with more than 4 fractional digits. -/
theorem claim4_dispute_resolve_identity (c : Client) (x : Dec)
    (hl : c.locked = false) (hn : is_sign_negative x = false)
    (hsa : c.available.s ≤ PRECISION) (hsh : c.held.s ≤ PRECISION)
    (hsx : x.s ≤ PRECISION)
    (h1 : (alignedAddM c.available (decNeg x)).natAbs < N96)
    (h2 : (alignedAddM c.held x).natAbs < N96)
    (h3 : (alignedAddM (c.dispute x).1.available x).natAbs < N96)
    (h4 : (alignedAddM (c.dispute x).1.held (decNeg x)).natAbs < N96) :
    (c.dispute x).2 = none ∧ ((c.dispute x).1.resolve x).2 = none ∧
    dval ((c.dispute x).1.resolve x).1.available = dval c.available ∧
    dval ((c.dispute x).1.resolve x).1.held = dval c.held ∧
    ((c.dispute x).1.resolve x).1.locked = c.locked := by
  have hd := dispute_exact hl hn hsa hsh hsx h1 h2
  simp only [hd] at h3 h4 ⊢
  have hr := @resolve_exact
    { c with
      available := ⟨alignedAddM c.available (decNeg x), max c.available.s x.s⟩,
      held := ⟨alignedAddM c.held x, max c.held.s x.s⟩ }
    x hl hn (max_le hsa hsx) (max_le hsh hsx) hsx h3 h4
  simp only [hr]
  refine ⟨trivial, trivial, ?_, ?_, trivial⟩
  · show dval ⟨alignedAddM ⟨alignedAddM c.available (decNeg x), max c.available.s x.s⟩ x,
      max (max c.available.s x.s) x.s⟩ = dval c.available
    rw [dval_aligned ⟨alignedAddM c.available (decNeg x), max c.available.s x.s⟩ x,
      dval_aligned_sub]
    ring
  · show dval ⟨alignedAddM ⟨alignedAddM c.held x, max c.held.s x.s⟩ (decNeg x),
      max (max c.held.s x.s) x.s⟩ = dval c.held
    rw [dval_aligned_sub ⟨alignedAddM c.held x, max c.held.s x.s⟩ x, dval_aligned]
    ring

/-- C4 counterexample: `available = 0.0001`, `held = 0`, amount `0.00015`
(five fractional digits).  All four checked sub-steps succeed — no overflow
anywhere — yet dispute followed by resolve leaves `available = 0.0002`, not
the original `0.0001`, because each leg rounds to 4 digits. -/
theorem claim4_counterexample :
    ((Client.dispute ⟨1, ⟨1, 4⟩, ⟨0, 0⟩, false⟩ ⟨15, 5⟩).2 = none) ∧
    (((Client.dispute ⟨1, ⟨1, 4⟩, ⟨0, 0⟩, false⟩ ⟨15, 5⟩).1.resolve ⟨15, 5⟩).2 = none) ∧
    ((Client.dispute ⟨1, ⟨1, 4⟩, ⟨0, 0⟩, false⟩ ⟨15, 5⟩).1.resolve ⟨15, 5⟩).1.available =
      ⟨2, 4⟩ ∧
    dval ⟨2, 4⟩ ≠ dval ⟨1, 4⟩ := by
  refine ⟨by decide, by decide, by decide, ?_⟩
  norm_num [dval]

/-- Witness for C4 at a concrete account and 1-digit amount. -/
theorem claim4_witness :
    dval ((Client.dispute ⟨1, ⟨10, 1⟩, ⟨0, 0⟩, false⟩ ⟨5, 1⟩).1.resolve ⟨5, 1⟩).1.available =
      dval ⟨10, 1⟩ :=
  (claim4_dispute_resolve_identity ⟨1, ⟨10, 1⟩, ⟨0, 0⟩, false⟩ ⟨5, 1⟩ rfl (by decide)
    (by decide) (by decide) (by decide) (by decide) (by decide) (by decide)
    (by decide)).2.2.1

/-! ### Claim C5 -/

/-- C5 refutation (code bug): the three-request stream
deposit(1, tx 1, MAX); dispute(1, tx 1); deposit(1, tx 2, MAX) is accepted in
full and reaches the state `available = held = Decimal::MAX`, on which the
report's unchecked `available + held` is undefined (the Rust `+` panics), so
the reported `total` row cannot be produced: the addition does overflow on a
reachable state. -/
theorem claim5_report_total_overflows :
    alookup 1 (Engine.run [⟨TxType.Deposit, 1, 1, some dMAX⟩,
      ⟨TxType.Dispute, 1, 1, none⟩, ⟨TxType.Deposit, 1, 2, some dMAX⟩]).clients =
      some ⟨1, dMAX, dMAX, false⟩ ∧
    Engine.report (Engine.run [⟨TxType.Deposit, 1, 1, some dMAX⟩,
      ⟨TxType.Dispute, 1, 1, none⟩, ⟨TxType.Deposit, 1, 2, some dMAX⟩]) = [none] ∧
    checked_add dMAX dMAX = none := by
  decide

/-! ### Claim C6 -/

/-- C6: for a deposit or withdrawal whose TxId is unused and whose amount is
present, the `TransactionRecord` is in the table after processing — whatever
the account operation returned, so a failed balance mutation still leaves the
record occupying its TxId. -/
theorem claim6_record_retained (e : Engine) (t : TxInput) (a : Dec)
    (hk : t.tx_type = TxType.Deposit ∨ t.tx_type = TxType.Withdrawal)
    (hfresh : alookup t.id e.transactions = none)
    (hamt : t.amount = some a) :
    alookup t.id (e.process_tx_inner t).1.transactions = some (Tx.new t) := by
  obtain ⟨tt, cid, tid, amt⟩ := t
  simp only [TxInput.amount] at hamt
  subst hamt
  rcases hk with hk | hk <;> simp only [TxInput.tx_type] at hk <;> subst hk <;>
  · simp only [Engine.process_tx_inner, writeClient, TxInput.id] at hfresh ⊢
    rw [if_neg (by simp [hfresh])]
    exact alookup_append_of_none _ hfresh

/-- Witness for C6: a deposit of `-1` (rejected with `NegativeAmount` by the
account) still leaves its record in the table. -/
theorem claim6_witness :
    alookup 9 (Engine.new.process_tx_inner ⟨TxType.Deposit, 4, 9, some ⟨-1, 0⟩⟩).1.transactions =
      some (Tx.new ⟨TxType.Deposit, 4, 9, some ⟨-1, 0⟩⟩) :=
  claim6_record_retained Engine.new ⟨TxType.Deposit, 4, 9, some ⟨-1, 0⟩⟩ ⟨-1, 0⟩
    (Or.inl rfl) rfl rfl

/-! ### Claim C7 -/

/-- C7: a second deposit or withdrawal bearing an already-recorded TxId —
whatever kind the existing record is — is rejected with `TxIdConflict`,
leaving the whole transaction table and every existing account unchanged. -/
theorem claim7_txid_conflict (e : Engine) (t : TxInput) (tx : Tx)
    (hk : t.tx_type = TxType.Deposit ∨ t.tx_type = TxType.Withdrawal)
    (hrec : alookup t.id e.transactions = some tx) :
    (e.process_tx_inner t).2 = some Error.TxIdConflict ∧
    (e.process_tx_inner t).1.transactions = e.transactions ∧
    (∀ cid c, alookup cid e.clients = some c →
      alookup cid (e.process_tx_inner t).1.clients = some c) := by
  obtain ⟨tt, cid, tid, amt⟩ := t
  rcases hk with hk | hk <;> simp only [TxInput.tx_type] at hk <;> subst hk <;>
  · simp only [Engine.process_tx_inner, writeClient, TxInput.id] at hrec ⊢
    rw [if_pos (by simp [hrec])]
    exact ⟨rfl, ensure_transactions e cid, fun cid2 c hc => ensure_lookup_of_some hc⟩

/-- Witness for C7: a withdrawal reusing TxId 1 after a deposit recorded it
is rejected with `TxIdConflict` and the record survives. -/
theorem claim7_witness :
    ((Engine.run [⟨TxType.Deposit, 0, 1, some ⟨10, 0⟩⟩]).process_tx_inner
      ⟨TxType.Withdrawal, 1, 1, some ⟨20, 0⟩⟩).2 = some Error.TxIdConflict :=
  (claim7_txid_conflict (Engine.run [⟨TxType.Deposit, 0, 1, some ⟨10, 0⟩⟩])
    ⟨TxType.Withdrawal, 1, 1, some ⟨20, 0⟩⟩ ⟨0, TxType.Deposit, ⟨10, 0⟩, false⟩
    (Or.inr rfl) (by decide)).1

/-! ### Claim C8 -/

/-- C8: the engine's Dispute branch never reads `underDispute`, so a dispute
of a deposit record that is already under dispute passes all engine checks:
it succeeds, leaves the flag `true`, and moves the recorded amount from
`available` to `held` once more (stated here under the exact-arithmetic side
conditions: scales at most 4 and both legs inside the 96-bit range). -/
theorem claim8_double_dispute (e : Engine) (t : TxInput) (tx : Tx) (c : Client)
    (ht : t.tx_type = TxType.Dispute)
    (hrec : alookup t.id e.transactions = some tx)
    (howner : tx.client_id = t.client_id)
    (hkind : tx.tx_type = TxType.Deposit)
    (hdup : tx.under_dispute = true)
    (hc : alookup t.client_id e.clients = some c)
    (hl : c.locked = false)
    (hn : is_sign_negative tx.amount = false)
    (hsa : c.available.s ≤ PRECISION) (hsh : c.held.s ≤ PRECISION)
    (hsx : tx.amount.s ≤ PRECISION)
    (h1 : (alignedAddM c.available (decNeg tx.amount)).natAbs < N96)
    (h2 : (alignedAddM c.held tx.amount).natAbs < N96) :
    (e.process_tx_inner t).2 = none ∧
    (∃ tx2, alookup t.id (e.process_tx_inner t).1.transactions = some tx2 ∧
      tx2.under_dispute = true ∧ tx2.amount = tx.amount) ∧
    (∃ c2, alookup t.client_id (e.process_tx_inner t).1.clients = some c2 ∧
      dval c2.available = dval c.available - dval tx.amount ∧
      dval c2.held = dval c.held + dval tx.amount) := by
  obtain ⟨tt, cid, tid, amt⟩ := t
  subst ht
  simp only [Engine.process_tx_inner, writeClient, TxInput.client_id, TxInput.id] at *
  simp only [hrec]
  rw [if_neg (not_not_intro howner), if_neg (not_not_intro hkind)]
  have hcl : clientOf e cid = c := clientOf_of_some hc
  have hd := @dispute_exact c tx.amount hl hn hsa hsh hsx h1 h2
  rw [hcl, hd]
  refine ⟨rfl, ⟨{ tx with under_dispute := true }, ?_, rfl, rfl⟩,
    ⟨_, aupdate_ensure_self e cid _, ?_, ?_⟩⟩
  · show alookup tid (aupdate tid _ e.transactions) = _
    rw [alookup_aupdate_self, hrec]
    rfl
  · exact dval_aligned_sub c.available tx.amount
  · exact dval_aligned c.held tx.amount

/-- Witness for C8: deposit 5.0 as tx 1, dispute it, then dispute it again —
the second dispute is accepted. -/
theorem claim8_witness :
    ((Engine.run [⟨TxType.Deposit, 1, 1, some ⟨50, 1⟩⟩,
      ⟨TxType.Dispute, 1, 1, none⟩]).process_tx_inner
        ⟨TxType.Dispute, 1, 1, none⟩).2 = none :=
  (claim8_double_dispute
    (Engine.run [⟨TxType.Deposit, 1, 1, some ⟨50, 1⟩⟩, ⟨TxType.Dispute, 1, 1, none⟩])
    ⟨TxType.Dispute, 1, 1, none⟩ ⟨1, TxType.Deposit, ⟨50, 1⟩, true⟩
    ⟨1, ⟨0, 1⟩, ⟨50, 1⟩, false⟩ rfl (by decide) rfl rfl rfl (by decide) rfl (by decide)
    (by decide) (by decide) (by decide) (by decide) (by decide)).1

/-! ### Claim C10 -/

/-- C10: a deposit of 1.12345678 stores `available = 1.1235` (scale 4) while
the transaction record keeps the 8-digit input amount; and in general a
successful deposit stores exactly one `round_dp` of the exact checked sum —
rounding happens once, at the assignment. -/
theorem claim10_round_once :
    alookup 1 (Engine.run [⟨TxType.Deposit, 1, 1, some ⟨112345678, 8⟩⟩]).clients =
      some ⟨1, ⟨11235, 4⟩, ⟨0, 0⟩, false⟩ ∧
    alookup 1 (Engine.run [⟨TxType.Deposit, 1, 1, some ⟨112345678, 8⟩⟩]).transactions =
      some ⟨1, TxType.Deposit, ⟨112345678, 8⟩, false⟩ ∧
    dval ⟨11235, 4⟩ = 11235 / 10000 ∧
    (∀ (c : Client) (x : Dec) (v : Dec), is_sign_negative x = false → c.locked = false →
      checked_add c.available x = some v →
      c.deposit x = ({ c with available := round_dp v PRECISION }, none)) := by
  refine ⟨by decide, by decide, by norm_num [dval], ?_⟩
  intro c x v hn hl hv
  unfold Client.deposit
  rw [if_neg (by simp [hn]), if_neg (by simp [hl]), hv]

/-- Witness for C10's general clause at a concrete account and amount. -/
theorem claim10_witness :
    Client.deposit (Client.new 7) ⟨25, 1⟩ =
      ({ Client.new 7 with available := round_dp ⟨25, 1⟩ PRECISION }, none) :=
  claim10_round_once.2.2.2 (Client.new 7) ⟨25, 1⟩ ⟨25, 1⟩ (by decide) rfl (by decide)

/-! ### Claim C9 -/

/-- Every branch of the dispatcher leaves the client table equal to the
ensured table with (at most) the target client's entry replaced. -/
theorem process_clients_shape (e : Engine) (t : TxInput) :
    ∃ c2, (e.process_tx_inner t).1.clients =
      aupdate t.client_id c2 (e.ensureClient t.client_id).clients := by
  obtain ⟨tt, cid, tid, amt⟩ := t
  have base : (e.ensureClient cid).clients =
      aupdate cid (clientOf e cid) (e.ensureClient cid).clients :=
    (aupdate_lookup_self (ensure_lookup_self e cid)).symm
  cases tt <;> simp only [Engine.process_tx_inner, writeClient]
  case Deposit =>
    split
    · exact ⟨_, base⟩
    · cases amt with
      | none => exact ⟨_, base⟩
      | some a => exact ⟨_, rfl⟩
  case Withdrawal =>
    split
    · exact ⟨_, base⟩
    · cases amt with
      | none => exact ⟨_, base⟩
      | some a => exact ⟨_, rfl⟩
  case Dispute =>
    cases hrec : alookup tid e.transactions with
    | none =>
      simp only [hrec]
      exact ⟨_, base⟩
    | some tx =>
      simp only [hrec]
      by_cases howner : tx.client_id = cid
      · by_cases hkind : tx.tx_type = TxType.Deposit
        · rw [if_neg (not_not_intro howner), if_neg (not_not_intro hkind)]
          exact ⟨_, rfl⟩
        · rw [if_neg (not_not_intro howner), if_pos hkind]
          exact ⟨_, base⟩
      · rw [if_pos howner]
        exact ⟨_, base⟩
  case Resolve =>
    cases hrec : alookup tid e.transactions with
    | none =>
      simp only [hrec]
      exact ⟨_, base⟩
    | some tx =>
      simp only [hrec]
      by_cases howner : tx.client_id = cid
      · by_cases hud : tx.under_dispute = true
        · rw [if_neg (not_not_intro howner), if_neg (not_not_intro hud)]
          exact ⟨_, rfl⟩
        · rw [if_neg (not_not_intro howner), if_pos hud]
          exact ⟨_, base⟩
      · rw [if_pos howner]
        exact ⟨_, base⟩
  case Chargeback =>
    cases hrec : alookup tid e.transactions with
    | none =>
      simp only [hrec]
      exact ⟨_, base⟩
    | some tx =>
      simp only [hrec]
      by_cases howner : tx.client_id = cid
      · by_cases hud : tx.under_dispute = true
        · rw [if_neg (not_not_intro howner), if_neg (not_not_intro hud)]
          exact ⟨_, rfl⟩
        · rw [if_neg (not_not_intro howner), if_pos hud]
          exact ⟨_, base⟩
      · rw [if_pos howner]
        exact ⟨_, base⟩

/-- C9: the account for the request's ClientId exists after processing (it is
created before any validation); no account is ever deleted; a ClientId absent
before a rejected request ends as the fresh zero account (assuming the stored
record amounts are representable), so it reports as a zero row; and the
report row of a fresh account is the zero row. -/
theorem claim9_account_creation (e : Engine) (t : TxInput) :
    (∃ c2, alookup t.client_id (e.process_tx_inner t).1.clients = some c2) ∧
    (∀ cid c, alookup cid e.clients = some c →
      ∃ c2, alookup cid (e.process_tx_inner t).1.clients = some c2) ∧
    (alookup t.client_id e.clients = none →
      (∀ id2 tx, alookup id2 e.transactions = some tx → tx.amount.m.natAbs < N96) →
      ∀ err, (e.process_tx_inner t).2 = some err →
      alookup t.client_id (e.process_tx_inner t).1.clients = some (Client.new t.client_id)) ∧
    ClientReport.new (Client.new t.client_id) =
      some ⟨t.client_id, ⟨0, 0⟩, ⟨0, 0⟩, ⟨0, 0⟩, false⟩ := by
  refine ⟨?_, ?_, ?_, rfl⟩
  · obtain ⟨c2, hc2⟩ := process_clients_shape e t
    refine ⟨c2, ?_⟩
    rw [hc2]
    exact aupdate_ensure_self e t.client_id c2
  · intro cid c hc
    obtain ⟨c2, hc2⟩ := process_clients_shape e t
    by_cases hk : cid = t.client_id
    · subst hk
      exact ⟨c2, by rw [hc2]; exact aupdate_ensure_self e t.client_id c2⟩
    · refine ⟨c, ?_⟩
      rw [hc2, alookup_aupdate_ne _ _ hk, ensure_lookup_ne hk]
      exact hc
  · intro hfresh hvalid err herr
    have hnew : clientOf e t.client_id = Client.new t.client_id :=
      clientOf_of_none hfresh
    have hpure : alookup t.client_id (e.ensureClient t.client_id).clients =
        some (Client.new t.client_id) := by
      rw [ensure_lookup_self, hnew]
    obtain ⟨tt, cid, tid, amt⟩ := t
    simp only [TxInput.client_id, TxInput.id] at hfresh hnew hpure ⊢
    cases tt
    case Deposit =>
      cases amt with
      | none =>
        simp only [Engine.process_tx_inner, writeClient]
        by_cases hconf : (alookup tid e.transactions).isSome = true
        · rw [if_pos hconf]
          exact hpure
        · rw [if_neg hconf]
          exact hpure
      | some a =>
        simp only [Engine.process_tx_inner, writeClient] at herr ⊢
        by_cases hconf : (alookup tid e.transactions).isSome = true
        · rw [if_pos hconf]
          exact hpure
        · rw [if_neg hconf] at herr ⊢
          rw [show ((clientOf e cid).deposit a).1 = clientOf e cid from
            deposit_fail herr]
          rw [hnew]
          rw [aupdate_lookup_self hpure]
          exact hpure
    case Withdrawal =>
      cases amt with
      | none =>
        simp only [Engine.process_tx_inner, writeClient]
        by_cases hconf : (alookup tid e.transactions).isSome = true
        · rw [if_pos hconf]
          exact hpure
        · rw [if_neg hconf]
          exact hpure
      | some a =>
        simp only [Engine.process_tx_inner, writeClient] at herr ⊢
        by_cases hconf : (alookup tid e.transactions).isSome = true
        · rw [if_pos hconf]
          exact hpure
        · rw [if_neg hconf] at herr ⊢
          rw [show ((clientOf e cid).withdraw a).1 = clientOf e cid from
            withdraw_fail herr]
          rw [hnew]
          rw [aupdate_lookup_self hpure]
          exact hpure
    case Dispute =>
      simp only [Engine.process_tx_inner, writeClient] at herr ⊢
      cases hrec : alookup tid e.transactions with
      | none =>
        simp only [hrec]
        exact hpure
      | some tx =>
        simp only [hrec] at herr ⊢
        by_cases howner : tx.client_id = cid
        · by_cases hkind : tx.tx_type = TxType.Deposit
          · rw [if_neg (not_not_intro howner), if_neg (not_not_intro hkind)] at herr ⊢
            by_cases hn : is_sign_negative tx.amount = true
            · rw [hnew]
              rw [show ((Client.new cid).dispute tx.amount).1 = Client.new cid from by
                rw [(ops_neg (Client.new cid) tx.amount hn).2.2.1]]
              rw [aupdate_lookup_self hpure]
              exact hpure
            · exfalso
              have hn2 : is_sign_negative tx.amount = false := by
                simpa using hn
              have := @dispute_fresh_success cid tx.amount (hvalid tid tx hrec) hn2
              rw [hnew] at herr
              rw [this] at herr
              cases herr
          · rw [if_neg (not_not_intro howner), if_pos hkind]
            exact hpure
        · rw [if_pos howner]
          exact hpure
    case Resolve =>
      simp only [Engine.process_tx_inner, writeClient] at herr ⊢
      cases hrec : alookup tid e.transactions with
      | none =>
        simp only [hrec]
        exact hpure
      | some tx =>
        simp only [hrec] at herr ⊢
        by_cases howner : tx.client_id = cid
        · by_cases hud : tx.under_dispute = true
          · rw [if_neg (not_not_intro howner), if_neg (not_not_intro hud)] at herr ⊢
            by_cases hn : is_sign_negative tx.amount = true
            · rw [hnew]
              rw [show ((Client.new cid).resolve tx.amount).1 = Client.new cid from by
                rw [(ops_neg (Client.new cid) tx.amount hn).2.2.2.1]]
              rw [aupdate_lookup_self hpure]
              exact hpure
            · exfalso
              have hn2 : is_sign_negative tx.amount = false := by
                simpa using hn
              have := @resolve_fresh_success cid tx.amount (hvalid tid tx hrec) hn2
              rw [hnew] at herr
              rw [this] at herr
              cases herr
          · rw [if_neg (not_not_intro howner), if_pos hud]
            exact hpure
        · rw [if_pos howner]
          exact hpure
    case Chargeback =>
      simp only [Engine.process_tx_inner, writeClient] at herr ⊢
      cases hrec : alookup tid e.transactions with
      | none =>
        simp only [hrec]
        exact hpure
      | some tx =>
        simp only [hrec] at herr ⊢
        by_cases howner : tx.client_id = cid
        · by_cases hud : tx.under_dispute = true
          · rw [if_neg (not_not_intro howner), if_neg (not_not_intro hud)] at herr ⊢
            by_cases hn : is_sign_negative tx.amount = true
            · rw [hnew]
              rw [show ((Client.new cid).chargeback tx.amount).1 = Client.new cid from by
                rw [(ops_neg (Client.new cid) tx.amount hn).2.2.2.2]]
              rw [aupdate_lookup_self hpure]
              exact hpure
            · exfalso
              have hn2 : is_sign_negative tx.amount = false := by
                simpa using hn
              have := @chargeback_fresh_success cid tx.amount (hvalid tid tx hrec) hn2
              rw [hnew] at herr
              rw [this] at herr
              cases herr
          · rw [if_neg (not_not_intro howner), if_pos hud]
            exact hpure
        · rw [if_pos howner]
          exact hpure

/-- Witness for C9: a dispute for an unknown TxId from a fresh engine still
creates (and keeps) the zero account for its ClientId. -/
theorem claim9_witness :
    alookup 0 (Engine.new.process_tx_inner ⟨TxType.Dispute, 0, 5, none⟩).1.clients =
      some (Client.new 0) :=
  (claim9_account_creation Engine.new ⟨TxType.Dispute, 0, 5, none⟩).2.2.1 rfl
    (fun id2 tx h => Option.noConfusion h) Error.TxNotFound (by decide)
